import Mathlib

/-!
Shallow embedding of `datumaro/plugins/yolo_format/extractor.py` (YOLO /
YOLOv8 extractor family) and proofs about its specification.

Geometry is embedded in `ℚ`. A whitespace-split record is a `List Tok`,
where a token records how Python would parse it: `Tok.int n` parses both as
`int` and as `float`, `Tok.num q` only as `float`, `Tok.raw s` as neither.
Files are association lists from paths to (already line-split, token-split)
contents. Exceptions become an explicit error type `YError`; the class
hierarchy of `datumaro.components.errors` is reflected by `YError.catchable`
(everything the `except (FileNotFoundError, IOError, DatasetImportError)`
clause of `YoloBaseExtractor._get` catches).
-/

namespace Yolo

/-- A token of a whitespace-split annotation record. -/
inductive Tok where
  | int (n : ℤ)
  | num (q : ℚ)
  | raw (s : String)
deriving DecidableEq, Inhabited

/-- Python `int(tok)`: succeeds exactly on integer literals. -/
def parseIntTok : Tok → Option ℤ
  | .int n => some n
  | .num _ => none
  | .raw _ => none

/-- Python `float(tok)`: succeeds on integer and on float literals. -/
def parseFloatTok : Tok → Option ℚ
  | .int n => some (n : ℚ)
  | .num q => some q
  | .raw _ => none

/-- Errors raised by the extractor code (`datumaro.components.errors` plus
the built-in I/O errors). `other` stands for any exception outside the
`DatasetImportError` / `IOError` hierarchies (e.g. `KeyError`). -/
inductive YError where
  | fieldCount (got : ℕ) (msg : String)
  | parseFailure (fieldName : String)
  | invalidAnn (msg : String)
  | undeclaredLabel (idText : String)
  | datasetImport (msg : String)
  | fileNotFound (path : String)
  | ioError (msg : String)
  | other (msg : String)
deriving DecidableEq

/-- Whether `except (FileNotFoundError, IOError, DatasetImportError)` in
`YoloBaseExtractor._get` catches the error. `InvalidAnnotationError` and
`UndeclaredLabelError` are subclasses of `DatasetImportError`. -/
def YError.catchable : YError → Bool
  | .other _ => false
  | _ => true

/-- `YoloExtractor._parse_field(value, int, name)`. -/
def parseFieldInt (t : Tok) (fieldName : String) : Except YError ℤ :=
  match parseIntTok t with
  | some n => .ok n
  | none => .error (.parseFailure fieldName)

/-- `YoloExtractor._parse_field(value, float, name)`. -/
def parseFieldFloat (t : Tok) (fieldName : String) : Except YError ℚ :=
  match parseFloatTok t with
  | some q => .ok q
  | none => .error (.parseFailure fieldName)

/-- One point of a `Skeleton`: pixel coordinates, visibility flags, sub-label
id (`None` when `LabelCategories.find` fails). -/
structure SkelPoint where
  coords : List ℚ
  visibility : List ℤ
  label : Option ℤ
deriving DecidableEq

/-- `Points.Visibility.visible.value` in `datumaro.components.annotation`. -/
def visibleValue : ℤ := 2

/-- The annotations produced by the extractors in this file. -/
inductive Ann where
  | bbox (x y w h : ℚ) (label : ℤ) (attributes : List (String × ℚ))
  | polygon (points : List ℚ) (label : ℤ)
  | skeleton (points : List SkelPoint) (label : ℤ)
deriving DecidableEq

/-- Association-list lookup (Python `dict[k]` / `dict.get(k)`), first match. -/
def alookup {κ β : Type} [DecidableEq κ] : List (κ × β) → κ → Option β
  | [], _ => none
  | (k, v) :: rest, key => if k = key then some v else alookup rest key

/-- Association-list update of an existing key (Python `dict[k] = v`):
replaces the value in place, keeping insertion order. -/
def aset {κ β : Type} [DecidableEq κ] : List (κ × β) → κ → β → List (κ × β)
  | [], _, _ => []
  | (k, v) :: rest, key, w =>
      if k = key then (k, w) :: rest else (k, v) :: aset rest key w

/-- Association-list removal (Python `dict.pop(k)`). -/
def aremove {κ β : Type} [DecidableEq κ] (l : List (κ × β)) (key : κ) :
    List (κ × β) :=
  l.filter (fun kv => kv.1 ≠ key)

/-- The keys of an association list, in insertion order. -/
def akeys {κ β : Type} (l : List (κ × β)) : List κ := l.map Prod.fst

/-! ## Label-id resolution (`_map_label_id`) -/

/-- The `names` entry of a YOLOv8 config: either a sequence of label names,
or a mapping from integer keys to label names (YAML dict keys). -/
inductive Names where
  | list (xs : List String)
  | dict (m : List (ℤ × String))
deriving DecidableEq

/-- `YOLOv8DetectionExtractor._label_mapping` for the dict dialect:
`{names_key: index for index, names_key in enumerate(sorted(names.keys()))}`. -/
def v8LabelMapping (m : List (ℤ × String)) : List (ℤ × ℤ) :=
  ((akeys m).insertionSort (· ≤ ·)).enum.map (fun p => (p.2, (p.1 : ℤ)))

/-- `YOLOv8DetectionExtractor._map_label_id`. -/
def v8MapLabelId (names : Names) (t : Tok) : Except YError ℤ := do
  let n ← parseFieldInt t "label id"
  match names with
  | .list xs =>
      if n < 0 ∨ n ≥ (xs.length : ℤ) then .error (.undeclaredLabel (toString n))
      else .ok n
  | .dict m =>
      if n ∉ akeys m then .error (.undeclaredLabel (toString n))
      else
        match alookup (v8LabelMapping m) n with
        | some r => .ok r
        | none => .error (.other "KeyError")

/-- `YoloExtractor._map_label_id`: `label_id not in categories` is
`LabelCategories.__contains__`, i.e. `0 <= label_id < len(items)`. -/
def yoloMapLabelId (numLabels : ℕ) (t : Tok) : Except YError ℤ := do
  let n ← parseFieldInt t "bbox label id"
  if n < 0 ∨ n ≥ (numLabels : ℤ) then .error (.undeclaredLabel (toString n))
  else .ok n

/-! ## Detection record parser (`YoloExtractor._load_one_annotation`) -/

/-- `YoloExtractor._load_one_annotation`, with the `_map_label_id` dynamic
dispatch as a parameter (legacy passes `yoloMapLabelId`, the YOLOv8
detection extractor passes `v8MapLabelId`). -/
def loadOneBbox (mapLabel : Tok → Except YError ℤ) (parts : List Tok)
    (imageHeight imageWidth : ℕ) : Except YError Ann :=
  if parts.length ≠ 5 then
    .error (.fieldCount parts.length
      "in the bbox description. Expected 5 fields (label, xc, yc, w, h).")
  else do
    let lt ← match parts.get? 0 with
      | some t => Except.ok t
      | none => Except.error (.other "IndexError")
    let xct ← match parts.get? 1 with
      | some t => Except.ok t
      | none => Except.error (.other "IndexError")
    let yct ← match parts.get? 2 with
      | some t => Except.ok t
      | none => Except.error (.other "IndexError")
    let wt ← match parts.get? 3 with
      | some t => Except.ok t
      | none => Except.error (.other "IndexError")
    let ht ← match parts.get? 4 with
      | some t => Except.ok t
      | none => Except.error (.other "IndexError")
    let labelId ← mapLabel lt
    let w ← parseFieldFloat wt "bbox width"
    let h ← parseFieldFloat ht "bbox height"
    let x := (← parseFieldFloat xct "bbox center x") - w * (0.5 : ℚ)
    let y := (← parseFieldFloat yct "bbox center y") - h * (0.5 : ℚ)
    .ok (.bbox (x * imageWidth) (y * imageHeight) (w * imageWidth)
      (h * imageHeight) labelId [])

/-! ## Per-record loop of `_parse_annotations` -/

/-- The `for line in lines` loop of `YoloExtractor._parse_annotations`: each
record is parsed under `try`, failures are reported to
`error_policy.report_annotation_error` and only drop that record. Returns
the collected annotations and the reported per-record errors, in order. -/
def parseLines (f : List Tok → Except YError Ann) :
    List (List Tok) → List Ann × List YError
  | [] => ([], [])
  | line :: rest =>
    let r := parseLines f rest
    match f line with
    | .ok a => (a :: r.1, r.2)
    | .error e => (r.1, e :: r.2)

/-! ## Filesystem, images and the two `_parse_annotations` variants -/

/-- The local filesystem, as the extractor sees annotation files: a path maps
to its stripped, whitespace-split lines (a blank line is `[]`). -/
structure FS where
  files : List (String × List (List Tok))
deriving DecidableEq

/-- Reading a text file (`open(path)`): `none` is `FileNotFoundError`. -/
def FS.read (fs : FS) (p : String) : Option (List (List Tok)) :=
  alookup fs.files p

/-- `osp.exists(path)`. -/
def FS.pathExists (fs : FS) (p : String) : Bool := (fs.read p).isSome

/-- An `Image` as used here: a path and the size `(height, width)` the
extractor can observe (side-car meta, or lazily decoded pixels; `none` when
neither is available). -/
structure ImageRef where
  path : String
  size : Option (ℕ × ℕ)
deriving DecidableEq

/-- `YoloExtractor._parse_annotations`: open the annotation file (may raise
`FileNotFoundError`), strip and keep non-blank lines, require the image size
once there is at least one record (`DatasetImportError` otherwise), then run
the per-record loop. The payload is (annotations, reported per-record
errors). -/
def yoloParseAnns (loadOne : List Tok → ℕ → ℕ → Except YError Ann) (fs : FS)
    (img : ImageRef) (annoPath : String) :
    Except YError (List Ann × List YError) :=
  match fs.read annoPath with
  | none => .error (.fileNotFound annoPath)
  | some rawLines =>
    match rawLines.filter (fun l => !l.isEmpty) with
    | [] => .ok ([], [])
    | line :: rest =>
      match img.size with
      | none => .error (.datasetImport "cant find image info")
      | some (imageHeight, imageWidth) =>
        .ok (parseLines (fun ps => loadOne ps imageHeight imageWidth)
          (line :: rest))

/-- `YOLOv8DetectionExtractor._parse_annotations` (inherited by the
segmentation, oriented-box and pose extractors): a missing annotation file
yields no annotations instead of an error. -/
def v8ParseAnns (loadOne : List Tok → ℕ → ℕ → Except YError Ann) (fs : FS)
    (img : ImageRef) (annoPath : String) :
    Except YError (List Ann × List YError) :=
  if fs.pathExists annoPath then yoloParseAnns loadOne fs img annoPath
  else .ok ([], [])

/-! ## The lazy subset and `YoloBaseExtractor._get` -/

/-- One materialized dataset item. -/
structure Item where
  id : String
  subset : String
  media : ImageRef
  anns : List Ann
deriving DecidableEq

/-- One slot of `Subset.items`: an unresolved image path, or the
materialized item that replaced it. -/
inductive Entry where
  | pending (path : String)
  | ready (item : Item)
deriving DecidableEq

/-- `Subset.items`: an insertion-ordered map from item id to slot. -/
abbrev SubsetItems := List (String × Entry)

/-- `osp.join(root, p)`. -/
def joinPath (root p : String) : String := root ++ "/" ++ p

/-- The fixed configuration of one extractor: dataset root, side-car image
size index (`self._image_info`), the size the pixel decoder would report for
an image path (`none` when decoding fails), the annotation-path derivation
(`_get_labels_path_from_image_path`), and the filesystem. -/
structure ExtCfg where
  rootpath : String
  imageInfo : List (String × (ℕ × ℕ))
  pixelSize : String → Option (ℕ × ℕ)
  labelsPathOf : String → String
  fs : FS

/-- Building the `Image` in `_get`: side-car size if present, else the size
comes from the lazy pixel loader. -/
def buildImage (cfg : ExtCfg) (itemId pend : String) : ImageRef :=
  let p := joinPath cfg.rootpath pend
  { path := p
    size := match alookup cfg.imageInfo itemId with
            | some s => some s
            | none => cfg.pixelSize p }

/-- The observable outcome of one `_get` call: the new `Subset.items`, the
`report_item_error` calls (key and error), the `report_annotation_error`
calls, the returned item (`none` when the call returns `None`), and an
exception that propagated uncaught. -/
structure GetResult where
  items : SubsetItems
  itemReports : List ((String × String) × YError)
  annReports : List YError
  result : Option Item
  uncaught : Option YError
deriving DecidableEq

/-- A variant of `_parse_annotations` as `_get` sees it, after the
annotation path has been derived from the image path. -/
def variantParse (cfg : ExtCfg)
    (pa : (List Tok → ℕ → ℕ → Except YError Ann) → FS → ImageRef → String →
      Except YError (List Ann × List YError))
    (loadOne : List Tok → ℕ → ℕ → Except YError Ann)
    (img : ImageRef) : Except YError (List Ann × List YError) :=
  pa loadOne cfg.fs img (cfg.labelsPathOf img.path)

/-- `YoloBaseExtractor._get`: a materialized slot is returned as is; a
pending slot is materialized once, replacing the slot in place; on a caught
failure the error policy is notified with key `(item id, subset name)`, the
id is popped from the map and `None` is returned. -/
def get (cfg : ExtCfg)
    (parse : ImageRef → Except YError (List Ann × List YError))
    (st : SubsetItems) (subsetName itemId : String) : GetResult :=
  match alookup st itemId with
  | none => ⟨st, [], [], none, some (.other "KeyError")⟩
  | some (.ready it) => ⟨st, [], [], some it, none⟩
  | some (.pending p) =>
    match parse (buildImage cfg itemId p) with
    | .ok (anns, annReps) =>
      ⟨aset st itemId
          (.ready ⟨itemId, subsetName, buildImage cfg itemId p, anns⟩),
        [], annReps, some ⟨itemId, subsetName, buildImage cfg itemId p, anns⟩,
        none⟩
    | .error e =>
      if e.catchable then
        ⟨aremove st itemId, [((itemId, subsetName), e)], [], none, none⟩
      else
        ⟨st, [], [], none, some e⟩

/-- The result of iterating a subset: final state, accumulated item-error
and per-record reports, the yielded items in order, and the exception that
ended the iteration early (`none` when the generator was exhausted
normally). -/
structure IterResult where
  items : SubsetItems
  itemReports : List ((String × String) × YError)
  annReports : List YError
  yields : List Item
  raised : Option YError
deriving DecidableEq

/-- The `RuntimeError` CPython raises when a dict changes size while being
iterated. -/
def runtimeErrorMsg : YError :=
  .other "RuntimeError: dictionary changed size during iteration"

/-- One loop step of `Subset.__iter__` prefixed to the rest of the
iteration: the step's reports, and its item when `_get` returned one. -/
def IterResult.prepend (r : GetResult) (rr : IterResult) : IterResult :=
  ⟨rr.items, r.itemReports ++ rr.itemReports, r.annReports ++ rr.annReports,
    (match r.result with | some it => [it] | none => []) ++ rr.yields,
    rr.raised⟩

/-- `Subset.__iter__` over the key sequence of the dict being iterated:
each key goes through `_get`, `None` results are skipped. `_get` only ever
touches the key it was called with, so the keys visited are a prefix of the
starting key order: an exception raised inside `_get` propagates out of the
generator, and when `_get` pops the failing id the dict shrinks, so the
generator's next loop step raises CPython's
`RuntimeError: dictionary changed size during iteration`. -/
def iterFrom (cfg : ExtCfg)
    (parse : ImageRef → Except YError (List Ann × List YError))
    (subsetName : String) (st : SubsetItems) :
    List String → IterResult
  | [] => ⟨st, [], [], [], none⟩
  | id :: rest =>
    match (get cfg parse st subsetName id).uncaught with
    | some e =>
      ⟨(get cfg parse st subsetName id).items,
        (get cfg parse st subsetName id).itemReports,
        (get cfg parse st subsetName id).annReports, [], some e⟩
    | none =>
      if (get cfg parse st subsetName id).items.length = st.length then
        IterResult.prepend (get cfg parse st subsetName id)
          (iterFrom cfg parse subsetName
            (get cfg parse st subsetName id).items rest)
      else
        ⟨(get cfg parse st subsetName id).items,
          (get cfg parse st subsetName id).itemReports,
          (get cfg parse st subsetName id).annReports, [],
          some runtimeErrorMsg⟩

/-- `Subset.__iter__`: iterate over the current keys of the map. -/
def iterSubset (cfg : ExtCfg)
    (parse : ImageRef → Except YError (List Ann × List YError))
    (subsetName : String) (st : SubsetItems) : IterResult :=
  iterFrom cfg parse subsetName st (akeys st)

/-- The materialized slots agree with their keys (true of every reachable
state: construction makes every slot pending, and `_get` stores an item
under its own id). -/
def WFItems (st : SubsetItems) : Prop :=
  ∀ k it, (k, Entry.ready it) ∈ st → it.id = k

/-! ## The extractor facade: subsets and `__len__` -/

/-- `self._subsets`, keyed by subset name. -/
abbrev Subsets := List (String × SubsetItems)

/-- `YoloBaseExtractor.__len__`: `sum(len(s) for s in self._subsets.values())`
with `Subset.__len__` being `len(self.items)`; recomputed from the current
maps on every call. -/
def lenExt (ss : Subsets) : ℕ := (ss.map (fun s => s.2.length)).sum

/-! ## Oriented-box parser (`YOLOv8OrientedBoxesExtractor._load_one_annotation`) -/

/-- Python float `%` with a positive modulus: `x % 180` lies in `[0, 180)`. -/
def mod180 (x : ℚ) : ℚ := x - 180 * ⌊x / 180⌋

/-- The value `cv2.minAreaRect` returns: `(center, size, rotation)`. -/
structure RotRect where
  center : ℚ × ℚ
  size : ℚ × ℚ
  rotation : ℚ
deriving DecidableEq

/-- Rotating `(x, y)` by the rotation matrix `[[c, -s], [s, c]]` about the
origin and translating by `(cx, cy)`. -/
def rotPt (c s cx cy x y : ℚ) : ℚ × ℚ := (cx + c * x - s * y, cy + s * x + c * y)

/-- The four corners of the rectangle centered at `(cx, cy)` with size
`(w, h)`, rotated by the angle whose cosine and sine are `c` and `s`. -/
def rectCorners (cx cy w h c s : ℚ) : List (ℚ × ℚ) :=
  [rotPt c s cx cy (-(w / 2)) (-(h / 2)),
   rotPt c s cx cy (w / 2) (-(h / 2)),
   rotPt c s cx cy (w / 2) (h / 2),
   rotPt c s cx cy (-(w / 2)) (h / 2)]

/-- Modelled from the spec: `cv2.minAreaRect` is an external library
collaborator, not part of this repository. The spec describes it as fitting
a minimum-area rectangle to the scaled corners, whose rotation the code then
reduces mod 180. This contract states its spec-described output on one
input: on the corner list of a rectangle it returns that rectangle, with
`θ` the rectangle's rotation angle in degrees (the angle whose cosine and
sine are `c` and `s`). -/
def FitsRectAt (fit : List (ℚ × ℚ) → RotRect) (cx cy w h c s θ : ℚ) : Prop :=
  fit (rectCorners cx cy w h c s) = ⟨(cx, cy), (w, h), θ⟩

/-- `take_by(tokens, 2)` as consumed by the corner comprehension: the
record length is already checked, so the pairs are exact. -/
def chunkPairs : List Tok → List (Tok × Tok)
  | x :: y :: rest => (x, y) :: chunkPairs rest
  | _ => []

/-- `YOLOv8OrientedBoxesExtractor._load_one_annotation`, with the external
`cv2.minAreaRect` as the parameter `fit`. -/
def obbLoadOne (fit : List (ℚ × ℚ) → RotRect) (names : Names)
    (parts : List Tok) (imageHeight imageWidth : ℕ) : Except YError Ann :=
  if parts.length ≠ 9 then
    .error (.fieldCount parts.length
      "in the bbox description. Expected 9 fields (label, x1, y1, x2, y2, x3, y3, x4, y4).")
  else do
    let labelId ← v8MapLabelId names (parts.headI)
    let points ← (chunkPairs (parts.drop 1)).enum.mapM (fun pr => do
      let x ← parseFieldFloat pr.2.1 ("bbox point " ++ toString pr.1 ++ " x")
      let y ← parseFieldFloat pr.2.2 ("bbox point " ++ toString pr.1 ++ " y")
      Except.ok (x * imageWidth, y * imageHeight))
    let r := fit points
    let rot := mod180 r.rotation
    .ok (.bbox (r.center.1 - r.size.1 / 2) (r.center.2 - r.size.2 / 2)
      r.size.1 r.size.2 labelId
      (if |rot| > 1 / 100000 then [("rotation", rot)] else []))

/-- The four pixel-scaled corner points of a 9-field oriented-box record. -/
def obbScaledPts (x1 y1 x2 y2 x3 y3 x4 y4 : ℚ)
    (imageHeight imageWidth : ℕ) : List (ℚ × ℚ) :=
  [(x1 * imageWidth, y1 * imageHeight), (x2 * imageWidth, y2 * imageHeight),
   (x3 * imageWidth, y3 * imageHeight), (x4 * imageWidth, y4 * imageHeight)]

/-! ## Pose parser (`YOLOv8PoseExtractor._load_one_annotation`) -/

/-- One entry of `LabelCategories.items`: name and parent name (empty when
the label has no parent). -/
structure LabelCat where
  name : String
  parent : String
deriving DecidableEq

/-- The categories a pose extractor holds: `LabelCategories.items` and
`PointsCategories` (skeleton label id to ordered sub-label names). -/
structure Cats where
  labels : List LabelCat
  points : List (ℤ × List String)
deriving DecidableEq

/-- Python list indexing with negative-index wrap-around. -/
def pyGet {α : Type} (l : List α) (i : ℤ) : Option α :=
  let j := if i < 0 then i + l.length else i
  if j < 0 then none else l.get? j.toNat

/-- `LabelCategories.find(name=n, parent=par)[0]`: the index of the category
with that name and parent, `None` when absent. -/
def Cats.find (c : Cats) (n par : String) : Option ℤ :=
  (c.labels.findIdx? (fun lc => lc.name = n ∧ lc.parent = par)).map
    (fun i => (i : ℤ))

/-- A list comprehension whose element construction can raise: the raise
propagates out of the comprehension. -/
def mapExcept {α β : Type} (f : α → Except YError β) :
    List α → Except YError (List β)
  | [] => .ok []
  | a :: rest => do
    let b ← f a
    let bs ← mapExcept f rest
    .ok (b :: bs)

/-- One `Points(...)` element of the skeleton comprehension: point number
`pointIdx`, point label `plabel`, coordinates read from the record at
`5 + pointIdx * valuesPerPoint`. -/
def mkSkelPoint (parts : List Tok) (imageHeight imageWidth : ℕ)
    (valuesPerPoint : ℕ) (pointIdx : ℕ) (plabel : Option ℤ) :
    Except YError SkelPoint := do
  let xt ← match parts.get? (5 + pointIdx * valuesPerPoint) with
    | some t => Except.ok t
    | none => Except.error (.other "IndexError")
  let yt ← match parts.get? (5 + pointIdx * valuesPerPoint + 1) with
    | some t => Except.ok t
    | none => Except.error (.other "IndexError")
  let x ← parseFieldFloat xt
    ("skeleton point " ++ toString pointIdx ++ " x")
  let y ← parseFieldFloat yt
    ("skeleton point " ++ toString pointIdx ++ " y")
  let vis ← if valuesPerPoint = 3 then do
      let vt ← match parts.get? (5 + pointIdx * valuesPerPoint + 2) with
        | some t => Except.ok t
        | none => Except.error (.other "IndexError")
      let v ← parseFieldInt vt
        ("skeleton point " ++ toString pointIdx ++ " visibility")
      pure [v]
    else pure [visibleValue]
  .ok ⟨[x * imageWidth, y * imageHeight], vis, plabel⟩

/-- `YOLOv8PoseExtractor._load_one_annotation`: `(P, V)` is the validated
keypoint shape `self._kpt_shape`, `mapLabel` the `_map_label_id` dispatch,
`cats` the loaded categories. -/
def poseLoadOne (cats : Cats) (mapLabel : Tok → Except YError ℤ) (P V : ℕ)
    (parts : List Tok) (imageHeight imageWidth : ℕ) : Except YError Ann :=
  if parts.length ≠ 5 + P * V then
    .error (.fieldCount parts.length
      ("in the skeleton description. Expected 5 fields (label, xc, yc, w, h)and then "
        ++ toString V ++ " for each of " ++ toString P ++ " points"))
  else do
    let labelId ← mapLabel parts.headI
    let pointLabels ← match alookup cats.points labelId with
      | some pls => Except.ok pls
      | none => Except.error (.other "KeyError")
    let parentCat ← match pyGet cats.labels labelId with
      | some lc => Except.ok lc
      | none => Except.error (.other "IndexError")
    let pointLabelIds := pointLabels.map
      (fun pl => cats.find pl parentCat.name)
    let points ← mapExcept
      (fun pr => mkSkelPoint parts imageHeight imageWidth V pr.1 pr.2)
      pointLabelIds.enum
    .ok (.skeleton points labelId)

/-! ## Pose category construction (`YOLOv8PoseExtractor._load_categories`) -/

/-- The auto-generated sub-label name `<skeleton>_point_<i>`. -/
def autoPointName (s : String) (i : ℕ) : String :=
  s ++ "_point_" ++ toString i

/-- The auto-generated sub-label list of one skeleton. -/
def autoChildren (maxPoints : ℕ) (s : String) : List String :=
  (List.range maxPoints).map (autoPointName s)

/-- Python truthiness of the optional `skeleton_sub_labels` dict:
`if self._skeleton_sub_labels:` is false for `None` and for `{}`. -/
def hintTruthy : Option (List (String × List String)) → Bool
  | none => false
  | some [] => false
  | some (_ :: _) => true

/-- Building the categories from the skeleton labels and the per-skeleton
sub-label lists (`children_labels` onward in `_load_categories`):
`LabelCategories` is the skeleton labels followed by all sub-labels with
their skeleton as parent; `PointsCategories` maps each skeleton's index to
its sub-label list. -/
def mkCats (skels : List String) (children : String → List String) : Cats :=
  { labels := skels.map (fun s => ⟨s, ""⟩) ++
      (skels.flatMap (fun s => (children s).map (fun c => (c, s)))).map
        (fun p => ⟨p.1, p.2⟩)
    points := skels.enum.map (fun p => ((p.1 : ℤ), children p.2)) }

/-- `YOLOv8PoseExtractor._load_categories` without a side-car meta file:
`maxPoints` is `self._kpt_shape[0]`, `skels` the labels resolved from the
config, `hint` the caller-supplied `skeleton_sub_labels`. -/
def poseLoadCats (maxPoints : ℕ) (skels : List String)
    (hint : Option (List (String × List String))) : Except YError Cats :=
  let m := hint.getD []
  if hintTruthy hint && skels.any (fun s => (alookup m s).isNone) then
    .error (.invalidAnn "Labels from config file are absent in sub label hint")
  else if hintTruthy hint &&
      skels.any (fun s => maxPoints < ((alookup m s).getD []).length) then
    .error (.invalidAnn "Following skeletons have more sub labels")
  else
    .ok (mkCats skels
      (if hintTruthy hint then (fun s => (alookup m s).getD [])
       else autoChildren maxPoints))

/-! ## Concrete instances used by witnesses and counterexamples -/

/-- A small extractor configuration with one known image size, a fixed
annotation-path derivation, and an empty filesystem (so every annotation
file is missing). -/
def exCfg : ExtCfg :=
  { rootpath := "r"
    imageInfo := [("a", (4, 8))]
    pixelSize := fun _ => none
    labelsPathOf := fun _ => "lab/a.txt"
    fs := ⟨[]⟩ }

/-- A parse dispatch that always fails with a file-not-found error. -/
def exParseFail : ImageRef → Except YError (List Ann × List YError) :=
  fun _ => .error (.fileNotFound "lab/a.txt")

/-- A one-item subset with a single pending slot. -/
def exSt : SubsetItems := [("a", .pending "images/train/a.jpg")]

/-! ## Proofs -/

theorem alookup_mem {κ β : Type} [DecidableEq κ] {l : List (κ × β)} {k : κ}
    {v : β} (h : alookup l k = some v) : (k, v) ∈ l := by
  induction l with
  | nil => simp [alookup] at h
  | cons hd tl ih =>
    rcases hd with ⟨k1, v1⟩
    simp only [alookup] at h
    by_cases hkk : k1 = k
    · subst hkk
      rw [if_pos rfl] at h
      injection h with h
      subst h
      exact List.mem_cons_self _ _
    · rw [if_neg hkk] at h
      exact List.mem_cons_of_mem _ (ih h)

theorem alookup_mem_keys {κ β : Type} [DecidableEq κ] {l : List (κ × β)}
    {k : κ} {v : β} (h : alookup l k = some v) : k ∈ akeys l := by
  have := alookup_mem h
  exact List.mem_map_of_mem Prod.fst this

theorem alookup_eq_none_of_not_mem {κ β : Type} [DecidableEq κ]
    {l : List (κ × β)} {k : κ} (h : k ∉ akeys l) : alookup l k = none := by
  induction l with
  | nil => rfl
  | cons hd tl ih =>
    rcases hd with ⟨k1, v1⟩
    simp only [akeys, List.map_cons, List.mem_cons] at h
    push_neg at h
    simp only [alookup, if_neg (Ne.symm h.1)]
    exact ih h.2

theorem akeys_aset {κ β : Type} [DecidableEq κ] (l : List (κ × β)) (k : κ)
    (w : β) : akeys (aset l k w) = akeys l := by
  induction l with
  | nil => rfl
  | cons hd tl ih =>
    rcases hd with ⟨k1, v1⟩
    by_cases hk : k1 = k
    · simp [aset, hk, akeys]
    · simp [aset, hk, akeys] at ih ⊢
      exact ih

theorem alookup_aset_other {κ β : Type} [DecidableEq κ] (l : List (κ × β))
    (k k2 : κ) (w : β) (h : k2 ≠ k) :
    alookup (aset l k w) k2 = alookup l k2 := by
  induction l with
  | nil => rfl
  | cons hd tl ih =>
    rcases hd with ⟨k1, v1⟩
    by_cases hk : k1 = k
    · subst hk
      simp [aset, alookup, Ne.symm h]
    · simp only [aset, if_neg hk, alookup]
      by_cases hk2 : k1 = k2
      · simp [hk2]
      · simp [hk2, ih]

theorem alookup_aremove_self {κ β : Type} [DecidableEq κ] (l : List (κ × β))
    (k : κ) : alookup (aremove l k) k = none := by
  apply alookup_eq_none_of_not_mem
  intro hmem
  simp only [akeys, List.mem_map] at hmem
  rcases hmem with ⟨kv, hkv, hfst⟩
  simp only [aremove, List.mem_filter] at hkv
  rcases hkv with ⟨_, hne⟩
  simp only [decide_eq_true_eq] at hne
  exact hne hfst

theorem alookup_aremove_other {κ β : Type} [DecidableEq κ] (l : List (κ × β))
    (k k2 : κ) (h : k2 ≠ k) : alookup (aremove l k) k2 = alookup l k2 := by
  induction l with
  | nil => rfl
  | cons hd tl ih =>
    rcases hd with ⟨k1, v1⟩
    by_cases hk : k1 = k
    · subst hk
      simp only [aremove, List.filter_cons]
      simp only [decide_eq_true_eq]
      simp only [alookup]
      rw [if_neg (Ne.symm h)]
      simpa [aremove] using ih
    · simp only [aremove, List.filter_cons]
      simp only [decide_eq_true_eq]
      rw [if_pos (by exact hk)]
      simp only [alookup]
      by_cases hk2 : k1 = k2
      · simp [hk2]
      · simpa [hk2, aremove] using ih

theorem aremove_eq_self_of_not_mem {κ β : Type} [DecidableEq κ]
    {l : List (κ × β)} {k : κ} (h : k ∉ akeys l) : aremove l k = l := by
  induction l with
  | nil => rfl
  | cons hd tl ih =>
    rcases hd with ⟨k1, v1⟩
    simp only [akeys, List.map_cons, List.mem_cons] at h
    push_neg at h
    simp only [aremove, List.filter_cons, decide_eq_true_eq]
    rw [if_pos (Ne.symm h.1)]
    have h2 := ih h.2
    simp only [aremove] at h2
    rw [h2]

theorem length_aremove {κ β : Type} [DecidableEq κ] {l : List (κ × β)}
    {k : κ} {v : β} (hnd : (akeys l).Nodup) (h : alookup l k = some v) :
    (aremove l k).length + 1 = l.length := by
  induction l with
  | nil => simp [alookup] at h
  | cons hd tl ih =>
    rcases hd with ⟨k1, v1⟩
    simp only [akeys, List.map_cons, List.nodup_cons] at hnd
    simp only [aremove, List.filter_cons, decide_eq_true_eq]
    by_cases hk : k1 = k
    · subst hk
      rw [if_neg (by simp)]
      have h2 : aremove tl k1 = tl := aremove_eq_self_of_not_mem hnd.1
      simp only [aremove] at h2
      rw [h2]
      simp
    · rw [if_pos hk]
      simp only [alookup, if_neg hk] at h
      have h3 := ih hnd.2 h
      simp only [aremove] at h3
      simp only [List.length_cons]
      omega

theorem parseLines_append (f : List Tok → Except YError Ann)
    (l1 l2 : List (List Tok)) :
    parseLines f (l1 ++ l2) =
      ((parseLines f l1).1 ++ (parseLines f l2).1,
       (parseLines f l1).2 ++ (parseLines f l2).2) := by
  induction l1 with
  | nil => simp [parseLines]
  | cons hd tl ih =>
    simp only [List.cons_append, parseLines]
    cases f hd <;> simp [ih]

theorem get_eq_keyerr {cfg : ExtCfg} {parse : ImageRef →
    Except YError (List Ann × List YError)} {st : SubsetItems}
    {sub id : String} (h : alookup st id = none) :
    get cfg parse st sub id = ⟨st, [], [], none, some (.other "KeyError")⟩ := by
  simp only [get, h]

theorem get_eq_ready {cfg : ExtCfg} {parse : ImageRef →
    Except YError (List Ann × List YError)} {st : SubsetItems}
    {sub id : String} {it : Item} (h : alookup st id = some (.ready it)) :
    get cfg parse st sub id = ⟨st, [], [], some it, none⟩ := by
  simp only [get, h]

theorem get_eq_pending_ok (sub : String) {cfg : ExtCfg} {parse : ImageRef →
    Except YError (List Ann × List YError)} {st : SubsetItems}
    {id p : String} {anns : List Ann} {annReps : List YError}
    (h : alookup st id = some (.pending p))
    (hp : parse (buildImage cfg id p) = .ok (anns, annReps)) :
    get cfg parse st sub id =
      ⟨aset st id (.ready ⟨id, sub, buildImage cfg id p, anns⟩), [], annReps,
        some ⟨id, sub, buildImage cfg id p, anns⟩, none⟩ := by
  simp only [get, h, hp]

theorem get_eq_pending_err (sub : String) {cfg : ExtCfg} {parse : ImageRef →
    Except YError (List Ann × List YError)} {st : SubsetItems}
    {id p : String} {e : YError}
    (h : alookup st id = some (.pending p))
    (hp : parse (buildImage cfg id p) = .error e)
    (hc : e.catchable = true) :
    get cfg parse st sub id =
      ⟨aremove st id, [((id, sub), e)], [], none, none⟩ := by
  simp only [get, h, hp, hc, if_true]

theorem get_eq_pending_raise (sub : String) {cfg : ExtCfg}
    {parse : ImageRef → Except YError (List Ann × List YError)}
    {st : SubsetItems} {id p : String} {e : YError}
    (h : alookup st id = some (.pending p))
    (hp : parse (buildImage cfg id p) = .error e)
    (hc : e.catchable = false) :
    get cfg parse st sub id = ⟨st, [], [], none, some e⟩ := by
  simp only [get, h, hp, hc]
  simp

theorem mem_aset {κ β : Type} [DecidableEq κ] {l : List (κ × β)} {k key : κ}
    {e w : β} (h : (k, e) ∈ aset l key w) : (k, e) ∈ l ∨ (k = key ∧ e = w) := by
  induction l with
  | nil => simp [aset] at h
  | cons hd tl ih =>
    rcases hd with ⟨k1, v1⟩
    by_cases hk : k1 = key
    · subst hk
      simp only [aset, if_pos rfl] at h
      cases h with
      | head => exact Or.inr ⟨rfl, rfl⟩
      | tail _ hmem => exact Or.inl (List.mem_cons_of_mem _ hmem)
    · simp only [aset, if_neg hk] at h
      cases h with
      | head => exact Or.inl (List.mem_cons_self _ _)
      | tail _ hmem =>
        rcases ih hmem with h2 | h2
        · exact Or.inl (List.mem_cons_of_mem _ h2)
        · exact Or.inr h2

theorem WFItems_get (cfg : ExtCfg) (parse : ImageRef →
    Except YError (List Ann × List YError)) (st : SubsetItems)
    (sub id : String) (hwf : WFItems st) :
    WFItems (get cfg parse st sub id).items := by
  cases hl : alookup st id with
  | none => rw [get_eq_keyerr hl]; exact hwf
  | some e =>
    cases e with
    | ready it => rw [get_eq_ready hl]; exact hwf
    | pending p =>
      cases hp : parse (buildImage cfg id p) with
      | ok pr =>
        rcases pr with ⟨anns, annReps⟩
        rw [get_eq_pending_ok sub hl hp]
        intro k it hmem
        rcases mem_aset hmem with h2 | h2
        · exact hwf k it h2
        · rcases h2 with ⟨hk, hv⟩
          injection hv with hv
          rw [hv, hk]
      | error e =>
        cases hc : e.catchable with
        | true =>
          rw [get_eq_pending_err sub hl hp hc]
          intro k it hmem
          exact hwf k it (List.mem_of_mem_filter hmem)
        | false =>
          rw [get_eq_pending_raise sub hl hp hc]
          exact hwf

theorem alookup_get_items_other (cfg : ExtCfg) (parse : ImageRef →
    Except YError (List Ann × List YError)) (st : SubsetItems)
    (sub id k : String) (hne : k ≠ id) :
    alookup (get cfg parse st sub id).items k = alookup st k := by
  cases hl : alookup st id with
  | none => rw [get_eq_keyerr hl]
  | some e =>
    cases e with
    | ready it => rw [get_eq_ready hl]
    | pending p =>
      cases hp : parse (buildImage cfg id p) with
      | ok pr =>
        rcases pr with ⟨anns, annReps⟩
        rw [get_eq_pending_ok sub hl hp]
        exact alookup_aset_other st id k _ hne
      | error e =>
        cases hc : e.catchable with
        | true =>
          rw [get_eq_pending_err sub hl hp hc]
          exact alookup_aremove_other st id k hne
        | false => rw [get_eq_pending_raise sub hl hp hc]

theorem alookup_get_items_none (cfg : ExtCfg) (parse : ImageRef →
    Except YError (List Ann × List YError)) (st : SubsetItems)
    (sub id k : String) (h : alookup st k = none) :
    alookup (get cfg parse st sub id).items k = none := by
  by_cases hne : k = id
  · subst hne
    rw [get_eq_keyerr h]
    exact h
  · rw [alookup_get_items_other cfg parse st sub id k hne]
    exact h

theorem get_result_id (cfg : ExtCfg) (parse : ImageRef →
    Except YError (List Ann × List YError)) (st : SubsetItems)
    (sub id : String) (it : Item) (hwf : WFItems st)
    (h : (get cfg parse st sub id).result = some it) :
    it.id = id ∧ alookup st id ≠ none := by
  cases hl : alookup st id with
  | none => rw [get_eq_keyerr hl] at h; simp at h
  | some e =>
    cases e with
    | ready it2 =>
      rw [get_eq_ready hl] at h
      simp only [Option.some.injEq] at h
      subst h
      exact ⟨hwf id it2 (alookup_mem hl), by simp [hl]⟩
    | pending p =>
      cases hp : parse (buildImage cfg id p) with
      | ok pr =>
        rcases pr with ⟨anns, annReps⟩
        rw [get_eq_pending_ok sub hl hp] at h
        simp only [Option.some.injEq] at h
        subst h
        exact ⟨rfl, by simp [hl]⟩
      | error e =>
        cases hc : e.catchable with
        | true => rw [get_eq_pending_err sub hl hp hc] at h; simp at h
        | false => rw [get_eq_pending_raise sub hl hp hc] at h; simp at h

theorem get_itemReports_key (cfg : ExtCfg) (parse : ImageRef →
    Except YError (List Ann × List YError)) (st : SubsetItems)
    (sub id : String) :
    ∀ rep ∈ (get cfg parse st sub id).itemReports, rep.1 = (id, sub) := by
  cases hl : alookup st id with
  | none => rw [get_eq_keyerr hl]; simp
  | some e =>
    cases e with
    | ready it => rw [get_eq_ready hl]; simp
    | pending p =>
      cases hp : parse (buildImage cfg id p) with
      | ok pr =>
        rcases pr with ⟨anns, annReps⟩
        rw [get_eq_pending_ok sub hl hp]
        simp
      | error e =>
        cases hc : e.catchable with
        | true =>
          rw [get_eq_pending_err sub hl hp hc]
          intro rep hrep
          simp only [List.mem_singleton] at hrep
          simp [hrep]
        | false =>
          rw [get_eq_pending_raise sub hl hp hc]
          simp

theorem iterFrom_cons_uncaught {cfg : ExtCfg} {parse : ImageRef →
    Except YError (List Ann × List YError)} {sub st id e} (rest : List String)
    (h : (get cfg parse st sub id).uncaught = some e) :
    iterFrom cfg parse sub st (id :: rest) =
      ⟨(get cfg parse st sub id).items,
        (get cfg parse st sub id).itemReports,
        (get cfg parse st sub id).annReports, [], some e⟩ := by
  simp only [iterFrom, h]

theorem iterFrom_cons_step {cfg : ExtCfg} {parse : ImageRef →
    Except YError (List Ann × List YError)} {sub st id} (rest : List String)
    (h : (get cfg parse st sub id).uncaught = none)
    (hlen : (get cfg parse st sub id).items.length = st.length) :
    iterFrom cfg parse sub st (id :: rest) =
      IterResult.prepend (get cfg parse st sub id)
        (iterFrom cfg parse sub (get cfg parse st sub id).items rest) := by
  simp only [iterFrom, h]
  rw [if_pos hlen]

theorem iterFrom_cons_abort {cfg : ExtCfg} {parse : ImageRef →
    Except YError (List Ann × List YError)} {sub st id} (rest : List String)
    (h : (get cfg parse st sub id).uncaught = none)
    (hlen : (get cfg parse st sub id).items.length ≠ st.length) :
    iterFrom cfg parse sub st (id :: rest) =
      ⟨(get cfg parse st sub id).items,
        (get cfg parse st sub id).itemReports,
        (get cfg parse st sub id).annReports, [], some runtimeErrorMsg⟩ := by
  simp only [iterFrom, h]
  rw [if_neg hlen]

theorem iter_excludes (cfg : ExtCfg) (parse : ImageRef →
    Except YError (List Ann × List YError)) (sub k : String) :
    ∀ (ids : List String) (st : SubsetItems), alookup st k = none →
      WFItems st →
      ∀ it ∈ (iterFrom cfg parse sub st ids).yields, it.id ≠ k := by
  intro ids
  induction ids with
  | nil => intro st _ _ it hit; simp [iterFrom] at hit
  | cons id rest ih =>
    intro st hnone hwf it hit
    cases hu : (get cfg parse st sub id).uncaught with
    | some e =>
      rw [iterFrom_cons_uncaught rest hu] at hit
      simp at hit
    | none =>
      by_cases hlen : (get cfg parse st sub id).items.length = st.length
      · rw [iterFrom_cons_step rest hu hlen] at hit
        simp only [IterResult.prepend, List.mem_append] at hit
        rcases hit with hit | hit
        · cases hres : (get cfg parse st sub id).result with
          | none => rw [hres] at hit; simp at hit
          | some it2 =>
            rw [hres] at hit
            simp only [List.mem_singleton] at hit
            subst hit
            have h2 := get_result_id cfg parse st sub id it hwf hres
            intro heq
            have hik : id = k := h2.1.symm.trans heq
            exact h2.2 (by rw [hik]; exact hnone)
        · exact ih (get cfg parse st sub id).items
            (alookup_get_items_none cfg parse st sub id k hnone)
            (WFItems_get cfg parse st sub id hwf) it hit
      · rw [iterFrom_cons_abort rest hu hlen] at hit
        simp at hit

theorem WFItems_aremove (st : SubsetItems) (k : String) (hwf : WFItems st) :
    WFItems (aremove st k) := by
  intro k2 it hmem
  exact hwf k2 it (List.mem_of_mem_filter hmem)

theorem length_aremove_cons_self {κ β : Type} [DecidableEq κ] (k : κ)
    (v : β) (rest : List (κ × β)) :
    (aremove ((k, v) :: rest) k).length ≠ ((k, v) :: rest).length := by
  simp only [aremove, List.filter_cons, decide_eq_true_eq]
  rw [if_neg (by simp)]
  have h := List.length_filter_le (fun kv => decide (kv.1 ≠ k)) rest
  simp only [List.length_cons]
  omega

theorem alookup_aset_self {κ β : Type} [DecidableEq κ] (l : List (κ × β))
    (k : κ) (w : β) {v : β} (h : alookup l k = some v) :
    alookup (aset l k w) k = some w := by
  induction l with
  | nil => simp [alookup] at h
  | cons hd tl ih =>
    rcases hd with ⟨k1, v1⟩
    by_cases hk : k1 = k
    · subst hk
      simp [aset, alookup]
    · simp only [alookup, if_neg hk] at h
      simp only [aset, if_neg hk, alookup, if_neg hk]
      exact ih h

theorem lenExt_aset (ss : Subsets) (name : String) (w : SubsetItems)
    {v : SubsetItems} (h : alookup ss name = some v) :
    lenExt (aset ss name w) + v.length = lenExt ss + w.length := by
  induction ss with
  | nil => simp [alookup] at h
  | cons hd tl ih =>
    rcases hd with ⟨n1, items1⟩
    by_cases hn : n1 = name
    · subst hn
      simp only [alookup, if_pos rfl] at h
      injection h with h
      subst h
      simp [aset, lenExt]
      omega
    · simp only [alookup, if_neg hn] at h
      have h2 := ih h
      simp only [aset, if_neg hn, lenExt, List.map_cons, List.sum_cons]
      simp only [lenExt] at h2
      omega

theorem mod180_mem (x : ℚ) : 0 ≤ mod180 x ∧ mod180 x < 180 := by
  have h0 : (180 : ℚ) * (x / 180) = x := by field_simp
  have h1 := Int.floor_le (x / 180)
  have h2 := Int.lt_floor_add_one (x / 180)
  constructor
  · have : (180 : ℚ) * (⌊x / 180⌋ : ℚ) ≤ 180 * (x / 180) := by
      have : (0 : ℚ) < 180 := by norm_num
      exact mul_le_mul_of_nonneg_left h1 (by norm_num)
    unfold mod180
    rw [h0] at this
    linarith
  · have : (180 : ℚ) * (x / 180) < 180 * ((⌊x / 180⌋ : ℚ) + 1) := by
      exact mul_lt_mul_of_pos_left h2 (by norm_num)
    unfold mod180
    rw [h0] at this
    linarith

/-! ## Claims -/

/-- C1: for every extractor variant (any `_parse_annotations` dispatch) and
every item id in a subset, if materializing the item on first access raises
a file-not-found, I/O or dataset-import error, the item-error hook is
invoked exactly once with key (item id, subset name), the id is removed
from the subset's map so that subsequent iterations and length computations
exclude it, and the access yields no item; an already-materialized item is
never re-parsed (the result does not depend on the parse dispatch at all)
and is returned unchanged on later accesses. -/
theorem c1_item_error_eviction (cfg : ExtCfg)
    (parse : ImageRef → Except YError (List Ann × List YError))
    (st : SubsetItems) (sub id p : String) (e : YError)
    (hpend : alookup st id = some (.pending p))
    (herr : parse (buildImage cfg id p) = .error e)
    (hcatch : e.catchable = true)
    (hwf : WFItems st) :
    (get cfg parse st sub id).itemReports = [((id, sub), e)] ∧
    (get cfg parse st sub id).result = none ∧
    (get cfg parse st sub id).uncaught = none ∧
    alookup (get cfg parse st sub id).items id = none ∧
    ((akeys st).Nodup →
      (get cfg parse st sub id).items.length + 1 = st.length) ∧
    (∀ it ∈ (iterSubset cfg parse sub (get cfg parse st sub id).items).yields,
      it.id ≠ id) ∧
    (∀ (st2 : SubsetItems) (id2 : String) (it : Item)
      (parse2 : ImageRef → Except YError (List Ann × List YError)),
      alookup st2 id2 = some (.ready it) →
      get cfg parse2 st2 sub id2 = ⟨st2, [], [], some it, none⟩) := by
  have hg := get_eq_pending_err sub hpend herr hcatch
  refine ⟨?_, ?_, ?_, ?_, ?_, ?_, ?_⟩
  · rw [hg]
  · rw [hg]
  · rw [hg]
  · rw [hg]
    exact alookup_aremove_self st id
  · intro hnd
    rw [hg]
    exact length_aremove hnd hpend
  · rw [hg]
    simp only [iterSubset]
    exact iter_excludes cfg parse sub id (akeys (aremove st id))
      (aremove st id) (alookup_aremove_self st id) (WFItems_aremove st id hwf)
  · intro st2 id2 it parse2 h2
    exact get_eq_ready h2

/-- Witness for C1 at a concrete failing item. -/
theorem c1_witness :
    (get exCfg exParseFail exSt "train" "a").itemReports =
      [(("a", "train"), .fileNotFound "lab/a.txt")] ∧
    (get exCfg exParseFail exSt "train" "a").result = none :=
  ⟨(c1_item_error_eviction exCfg exParseFail exSt "train" "a"
      "images/train/a.jpg" (.fileNotFound "lab/a.txt") rfl rfl rfl
      (by intro k it hmem; simp [exSt] at hmem)).1,
   (c1_item_error_eviction exCfg exParseFail exSt "train" "a"
      "images/train/a.jpg" (.fileNotFound "lab/a.txt") rfl rfl rfl
      (by intro k it hmem; simp [exSt] at hmem)).2.1⟩

/-- C2 counterexample: for the YOLOv8 detection variant, an item whose
annotation file is absent at first read is NOT absent from iteration (it is
yielded, with no annotations) and the error policy receives no item-level
error at all, so the claim fails for that extractor variant. -/
theorem c2_counterexample_v8 :
    ((iterSubset exCfg
        (variantParse exCfg v8ParseAnns (loadOneBbox (v8MapLabelId
          (.list ["person"])))) "train" exSt).yields.map Item.id = ["a"]) ∧
    (iterSubset exCfg
        (variantParse exCfg v8ParseAnns (loadOneBbox (v8MapLabelId
          (.list ["person"])))) "train" exSt).itemReports = [] := by
  constructor
  · rfl
  · rfl

/-- C2 (amended): for the legacy YOLO extractor variant, when iteration
reaches an item whose annotation file was deleted between indexing and its
first read — stated here with the item at the head of its subset, so its
read is the iteration's first — the error policy receives exactly one
item-level error for it, keyed by (item id, subset); the item is not
yielded and is evicted permanently (absent from the map and from any later
iteration). The current iteration however does not continue past it: the
eviction pops from the dict being iterated, so the generator's next step
raises CPython's `RuntimeError: dictionary changed size during iteration`
instead of moving on to the remaining items. The YOLOv8 variants instead
materialize such an item with no annotations (claim C9). -/
theorem c2_legacy_missing_ann_file (cfg : ExtCfg)
    (loadOne : List Tok → ℕ → ℕ → Except YError Ann)
    (rest : SubsetItems) (sub id p : String)
    (hmiss : cfg.fs.read (cfg.labelsPathOf (buildImage cfg id p).path) = none)
    (hwf : WFItems ((id, Entry.pending p) :: rest)) :
    (iterSubset cfg (variantParse cfg yoloParseAnns loadOne) sub
        ((id, Entry.pending p) :: rest)).itemReports =
      [((id, sub),
        .fileNotFound (cfg.labelsPathOf (buildImage cfg id p).path))] ∧
    (iterSubset cfg (variantParse cfg yoloParseAnns loadOne) sub
        ((id, Entry.pending p) :: rest)).yields = [] ∧
    (iterSubset cfg (variantParse cfg yoloParseAnns loadOne) sub
        ((id, Entry.pending p) :: rest)).raised = some runtimeErrorMsg ∧
    alookup (iterSubset cfg (variantParse cfg yoloParseAnns loadOne) sub
        ((id, Entry.pending p) :: rest)).items id = none ∧
    (∀ it ∈ (iterSubset cfg (variantParse cfg yoloParseAnns loadOne) sub
        (iterSubset cfg (variantParse cfg yoloParseAnns loadOne) sub
          ((id, Entry.pending p) :: rest)).items).yields, it.id ≠ id) := by
  have hpend : alookup ((id, Entry.pending p) :: rest) id =
      some (.pending p) := by
    simp [alookup]
  have hp : variantParse cfg yoloParseAnns loadOne (buildImage cfg id p) =
      .error (.fileNotFound
        (cfg.labelsPathOf (buildImage cfg id p).path)) := by
    unfold variantParse yoloParseAnns
    rw [hmiss]
  have hg := get_eq_pending_err sub hpend hp rfl
  have hu : (get cfg (variantParse cfg yoloParseAnns loadOne)
      ((id, Entry.pending p) :: rest) sub id).uncaught = none := by
    rw [hg]
  have hlen : (get cfg (variantParse cfg yoloParseAnns loadOne)
      ((id, Entry.pending p) :: rest) sub id).items.length ≠
      ((id, Entry.pending p) :: rest).length := by
    rw [hg]
    exact length_aremove_cons_self id (Entry.pending p) rest
  have habort := iterFrom_cons_abort (akeys rest) hu hlen
  have hkeys : akeys ((id, Entry.pending p) :: rest) = id :: akeys rest :=
    rfl
  have hiter : iterSubset cfg (variantParse cfg yoloParseAnns loadOne) sub
      ((id, Entry.pending p) :: rest) =
      ⟨(get cfg (variantParse cfg yoloParseAnns loadOne)
          ((id, Entry.pending p) :: rest) sub id).items,
        (get cfg (variantParse cfg yoloParseAnns loadOne)
          ((id, Entry.pending p) :: rest) sub id).itemReports,
        (get cfg (variantParse cfg yoloParseAnns loadOne)
          ((id, Entry.pending p) :: rest) sub id).annReports, [],
        some runtimeErrorMsg⟩ := by
    rw [iterSubset, hkeys, habort]
  refine ⟨?_, ?_, ?_, ?_, ?_⟩
  · rw [hiter, hg]
  · rw [hiter]
  · rw [hiter]
  · rw [hiter, hg]
    exact alookup_aremove_self _ id
  · intro it hit
    rw [hiter, hg] at hit
    refine iter_excludes cfg (variantParse cfg yoloParseAnns loadOne) sub id
      (akeys (aremove ((id, Entry.pending p) :: rest) id))
      (aremove ((id, Entry.pending p) :: rest) id)
      (alookup_aremove_self _ id) (WFItems_aremove _ id hwf) it ?_
    simpa only [iterSubset] using hit

/-- Witness for C2 at a concrete missing annotation file: one report, and
the iteration ends in the RuntimeError. -/
theorem c2_witness :
    (iterSubset exCfg
        (variantParse exCfg yoloParseAnns (loadOneBbox (yoloMapLabelId 1)))
        "train" [("a", Entry.pending "images/train/a.jpg")]).itemReports =
      [(("a", "train"), .fileNotFound "lab/a.txt")] ∧
    (iterSubset exCfg
        (variantParse exCfg yoloParseAnns (loadOneBbox (yoloMapLabelId 1)))
        "train" [("a", Entry.pending "images/train/a.jpg")]).raised =
      some runtimeErrorMsg := by
  have h := c2_legacy_missing_ann_file exCfg (loadOneBbox (yoloMapLabelId 1))
    [] "train" "a" "images/train/a.jpg" rfl
    (by intro k it hmem; simp at hmem)
  exact ⟨h.1, h.2.2.1⟩

/-- C8: the total item count is the sum over all subsets of the number of
entries currently in each subset's map; after an item is evicted by a
materialization failure the recomputed total decreases by exactly one and
the evicted id is no longer counted. -/
theorem c8_len_recomputed (cfg : ExtCfg)
    (parse : ImageRef → Except YError (List Ann × List YError))
    (ss : Subsets) (name : String) (st : SubsetItems) (id p : String)
    (e : YError)
    (hsub : alookup ss name = some st)
    (hpend : alookup st id = some (.pending p))
    (herr : parse (buildImage cfg id p) = .error e)
    (hcatch : e.catchable = true)
    (hnd : (akeys st).Nodup) :
    lenExt ss = (ss.map (fun s => s.2.length)).sum ∧
    lenExt (aset ss name (get cfg parse st name id).items) + 1 = lenExt ss ∧
    alookup (aset ss name (get cfg parse st name id).items) name =
      some (get cfg parse st name id).items ∧
    alookup (get cfg parse st name id).items id = none := by
  have hg := get_eq_pending_err name hpend herr hcatch
  refine ⟨rfl, ?_, alookup_aset_self ss name _ hsub, ?_⟩
  · have h2 := lenExt_aset ss name (get cfg parse st name id).items hsub
    have h3 : (get cfg parse st name id).items.length + 1 = st.length := by
      rw [hg]
      exact length_aremove hnd hpend
    omega
  · rw [hg]
    exact alookup_aremove_self st id

/-- Witness for C8 at a concrete one-subset extractor. -/
theorem c8_witness :
    lenExt (aset [("train", exSt)] "train"
      (get exCfg exParseFail exSt "train" "a").items) + 1 =
      lenExt [("train", exSt)] :=
  (c8_len_recomputed exCfg exParseFail [("train", exSt)] "train" exSt "a"
    "images/train/a.jpg" (.fileNotFound "lab/a.txt") rfl rfl rfl rfl
    (by simp [exSt, akeys])).2.1

/-- C9: for the YOLOv8 detection, segmentation, oriented-box and pose
extractors (any record parser under the shared
`YOLOv8DetectionExtractor._parse_annotations`), an item whose annotation
file does not exist at first read materializes successfully with an empty
annotation list, stays in its subset, and no item-level or annotation-level
error is reported — unlike the legacy YOLO extractor, which reports a
file-not-found item error on the same input. -/
theorem c9_v8_missing_ann_ok (cfg : ExtCfg)
    (loadOne : List Tok → ℕ → ℕ → Except YError Ann)
    (st : SubsetItems) (sub id p : String)
    (hpend : alookup st id = some (.pending p))
    (hmiss : cfg.fs.read (cfg.labelsPathOf (buildImage cfg id p).path) =
      none) :
    (get cfg (variantParse cfg v8ParseAnns loadOne) st sub id).result =
      some ⟨id, sub, buildImage cfg id p, []⟩ ∧
    (get cfg (variantParse cfg v8ParseAnns loadOne) st sub
      id).itemReports = [] ∧
    (get cfg (variantParse cfg v8ParseAnns loadOne) st sub id).annReports =
      [] ∧
    (get cfg (variantParse cfg v8ParseAnns loadOne) st sub id).uncaught =
      none ∧
    alookup (get cfg (variantParse cfg v8ParseAnns loadOne) st sub id).items
      id = some (.ready ⟨id, sub, buildImage cfg id p, []⟩) ∧
    akeys (get cfg (variantParse cfg v8ParseAnns loadOne) st sub id).items =
      akeys st ∧
    (get cfg (variantParse cfg yoloParseAnns loadOne) st sub
      id).itemReports =
      [((id, sub),
        .fileNotFound (cfg.labelsPathOf (buildImage cfg id p).path))] := by
  have hok : variantParse cfg v8ParseAnns loadOne (buildImage cfg id p) =
      .ok ([], []) := by
    unfold variantParse v8ParseAnns FS.pathExists
    rw [hmiss]
    rfl
  have hg := get_eq_pending_ok sub hpend hok
  have herr : variantParse cfg yoloParseAnns loadOne (buildImage cfg id p) =
      .error (.fileNotFound
        (cfg.labelsPathOf (buildImage cfg id p).path)) := by
    unfold variantParse yoloParseAnns
    rw [hmiss]
  have hg2 := get_eq_pending_err sub hpend herr rfl
  refine ⟨?_, ?_, ?_, ?_, ?_, ?_, ?_⟩
  · rw [hg]
  · rw [hg]
  · rw [hg]
  · rw [hg]
  · rw [hg]
    exact alookup_aset_self st id _ hpend
  · rw [hg]
    exact akeys_aset st id _
  · rw [hg2]

theorem ok_bind {α β : Type} (a : α) (f : α → Except YError β) :
    (Except.ok a >>= f) = f a := rfl

theorem error_bind {α β : Type} (e : YError) (f : α → Except YError β) :
    ((Except.error e : Except YError α) >>= f) = Except.error e := rfl

theorem alookup_enumFrom_map {t : ℤ} :
    ∀ (l : List ℤ) (n : ℕ), t ∈ l →
      alookup ((l.enumFrom n).map (fun p => (p.2, (p.1 : ℤ)))) t =
        some (((n + l.indexOf t : ℕ) : ℤ)) := by
  intro l
  induction l with
  | nil => intro n hmem; simp at hmem
  | cons a tl ih =>
    intro n hmem
    by_cases ha : a = t
    · subst ha
      simp [alookup, List.indexOf_cons_self]
    · have hmem2 : t ∈ tl := by
        rcases List.mem_cons.mp hmem with h2 | h2
        · exact absurd h2.symm ha
        · exact h2
      have h3 := ih (n + 1) hmem2
      simp only [List.enumFrom_cons, List.map_cons, alookup, if_neg ha]
      rw [h3]
      have h4 : tl.indexOf t + 1 = (a :: tl).indexOf t := by
        rw [List.indexOf_cons_ne _ (by exact ha)]
      congr 1
      rw [← h4]
      push_cast
      ring

theorem v8LabelMapping_rank {m : List (ℤ × String)} {t : ℤ}
    (hmem : t ∈ akeys m) :
    alookup (v8LabelMapping m) t =
      some ((((akeys m).insertionSort (· ≤ ·)).indexOf t : ℕ) : ℤ) := by
  have hmem2 : t ∈ (akeys m).insertionSort (· ≤ ·) :=
    ((List.perm_insertionSort (· ≤ ·) (akeys m)).mem_iff).mpr hmem
  have h := alookup_enumFrom_map ((akeys m).insertionSort (· ≤ ·)) 0 hmem2
  simpa [v8LabelMapping, List.enum] using h

/-- C3: YOLOv8 label-id resolution. With a list-valued `names`, an integer
token `t` fails as undeclared-label iff `t < 0` or `t ≥ len(names)`, and
otherwise maps to `t` itself; with a mapping-valued `names`, a token fails
as undeclared-label iff it is absent from the mapping's keys, and otherwise
maps to the rank of that key in sorted key order; a record whose label
fails this way is dropped alone — the item keeps the annotations of its
other records, and the failure is reported per record. -/
theorem c3_label_id_resolution :
    (∀ (xs : List String) (t : ℤ),
      (v8MapLabelId (.list xs) (.int t) =
          .error (.undeclaredLabel (toString t)) ↔
        t < 0 ∨ (xs.length : ℤ) ≤ t) ∧
      (¬(t < 0 ∨ (xs.length : ℤ) ≤ t) →
        v8MapLabelId (.list xs) (.int t) = .ok t)) ∧
    (∀ (m : List (ℤ × String)) (t : ℤ),
      (v8MapLabelId (.dict m) (.int t) =
          .error (.undeclaredLabel (toString t)) ↔ t ∉ akeys m) ∧
      (t ∈ akeys m →
        v8MapLabelId (.dict m) (.int t) =
          .ok ((((akeys m).insertionSort (· ≤ ·)).indexOf t : ℕ) : ℤ))) ∧
    (∀ (names : Names) (lt a b c d : Tok) (imageHeight imageWidth : ℕ)
      (e : YError),
      v8MapLabelId names lt = .error e →
      loadOneBbox (v8MapLabelId names) [lt, a, b, c, d] imageHeight
        imageWidth = .error e) ∧
    (∀ (f : List Tok → Except YError Ann) (line : List Tok) (e : YError)
      (l1 l2 : List (List Tok)),
      f line = .error e →
      (parseLines f (l1 ++ line :: l2)).1 = (parseLines f (l1 ++ l2)).1 ∧
      (parseLines f (l1 ++ line :: l2)).2 =
        (parseLines f l1).2 ++ e :: (parseLines f l2).2) := by
  refine ⟨?_, ?_, ?_, ?_⟩
  · intro xs t
    have hred : v8MapLabelId (.list xs) (.int t) =
        if t < 0 ∨ (xs.length : ℤ) ≤ t then
          .error (.undeclaredLabel (toString t))
        else .ok t := by
      simp only [v8MapLabelId, parseFieldInt, parseIntTok, ok_bind,
        ge_iff_le]
    rw [hred]
    constructor
    · constructor
      · intro h
        by_contra hc
        rw [if_neg hc] at h
        exact Except.noConfusion h
      · intro h
        rw [if_pos h]
    · intro h
      rw [if_neg h]
  · intro m t
    have hred : v8MapLabelId (.dict m) (.int t) =
        if t ∉ akeys m then .error (.undeclaredLabel (toString t))
        else match alookup (v8LabelMapping m) t with
          | some r => .ok r
          | none => .error (.other "KeyError") := by
      simp only [v8MapLabelId, parseFieldInt, parseIntTok, ok_bind]
    rw [hred]
    constructor
    · constructor
      · intro h
        by_contra hc
        rw [if_neg (not_not_intro hc), v8LabelMapping_rank hc] at h
        exact Except.noConfusion h
      · intro h
        rw [if_pos h]
    · intro h
      rw [if_neg (not_not_intro h), v8LabelMapping_rank h]
  · intro names lt a b c d imageHeight imageWidth e h
    simp [loadOneBbox, ok_bind, error_bind, h]
  · intro f line e l1 l2 h
    have h2 := parseLines_append f l1 (line :: l2)
    have h3 := parseLines_append f l1 l2
    simp only [parseLines, h] at h2
    constructor
    · rw [h2, h3]
    · rw [h2]

/-- Witness for C3: token 7 resolves through the sorted keys of the mapping
`{7: b, 3: a}` to rank 1. -/
theorem c3_witness :
    v8MapLabelId (.dict [((7 : ℤ), "b"), (3, "a")]) (.int 7) =
      .ok ((((akeys [((7 : ℤ), "b"), (3, "a")]).insertionSort
        (· ≤ ·)).indexOf 7 : ℕ) : ℤ) :=
  ((c3_label_id_resolution).2.1 [((7 : ℤ), "b"), (3, "a")] 7).2 (by decide)

/-- C4: a detection record whose field count differs from 5 fails with a
field-count error; a 5-field record with numeric fields and a declared
label yields the Bbox with top-left `((xc − w/2)·W, (yc − h/2)·H)` and size
`(w·W, h·H)`, and renormalizing that box (dividing by the image size and
converting back to center form) reproduces the original `xc, yc, w, h`
exactly. -/
theorem c4_detection_roundtrip :
    (∀ (mapLabel : Tok → Except YError ℤ) (parts : List Tok)
      (imageHeight imageWidth : ℕ), parts.length ≠ 5 →
      loadOneBbox mapLabel parts imageHeight imageWidth =
        .error (.fieldCount parts.length
          "in the bbox description. Expected 5 fields (label, xc, yc, w, h).")) ∧
    (∀ (numLabels : ℕ) (t : ℤ) (xc yc w h : ℚ) (imageHeight imageWidth : ℕ),
      0 ≤ t → t < (numLabels : ℤ) → 0 < imageHeight → 0 < imageWidth →
      loadOneBbox (yoloMapLabelId numLabels)
          [.int t, .num xc, .num yc, .num w, .num h] imageHeight
          imageWidth =
        .ok (.bbox ((xc - w * (1 / 2)) * imageWidth)
          ((yc - h * (1 / 2)) * imageHeight) (w * imageWidth)
          (h * imageHeight) t []) ∧
      ((xc - w * (1 / 2)) * imageWidth / imageWidth +
          (w * imageWidth / imageWidth) / 2 = xc ∧
       (yc - h * (1 / 2)) * imageHeight / imageHeight +
          (h * imageHeight / imageHeight) / 2 = yc ∧
       w * imageWidth / imageWidth = w ∧
       h * imageHeight / imageHeight = h)) := by
  constructor
  · intro mapLabel parts imageHeight imageWidth h
    simp [loadOneBbox, h]
  · intro numLabels t xc yc w h imageHeight imageWidth ht1 ht2 hH hW
    have hmap : yoloMapLabelId numLabels (.int t) = .ok t := by
      have hred : yoloMapLabelId numLabels (.int t) =
          if t < 0 ∨ (numLabels : ℤ) ≤ t then
            .error (.undeclaredLabel (toString t))
          else .ok t := by
        simp only [yoloMapLabelId, parseFieldInt, parseIntTok, ok_bind,
          ge_iff_le]
      rw [hred, if_neg (by omega)]
    have hWq : (imageWidth : ℚ) ≠ 0 := Nat.cast_ne_zero.mpr (by omega)
    have hHq : (imageHeight : ℚ) ≠ 0 := Nat.cast_ne_zero.mpr (by omega)
    constructor
    · simp [loadOneBbox, hmap, parseFieldFloat, parseFloatTok, ok_bind,
        List.get?]
      norm_num
    · refine ⟨?_, ?_, ?_, ?_⟩
      · field_simp
        ring
      · field_simp
        ring
      · field_simp
      · field_simp

/-- Witness for C4 at a concrete record. -/
theorem c4_witness :
    loadOneBbox (yoloMapLabelId 2)
        [.int 1, .num (1 / 2), .num (1 / 2), .num (1 / 4), .num (1 / 4)]
        4 8 =
      .ok (.bbox ((1 / 2 - 1 / 4 * (1 / 2)) * (8 : ℕ))
        ((1 / 2 - 1 / 4 * (1 / 2)) * (4 : ℕ)) (1 / 4 * (8 : ℕ))
        (1 / 4 * (4 : ℕ)) 1 []) :=
  ((c4_detection_roundtrip).2 2 1 (1 / 2) (1 / 2) (1 / 4) (1 / 4) 4 8
    (by decide) (by decide) (by decide) (by decide)).1

/-- Witness for C9 at a concrete missing annotation file. -/
theorem c9_witness :
    (get exCfg (variantParse exCfg v8ParseAnns (loadOneBbox (v8MapLabelId
      (.list ["person"])))) exSt "train" "a").result =
      some ⟨"a", "train", buildImage exCfg "a" "images/train/a.jpg", []⟩ :=
  (c9_v8_missing_ann_ok exCfg (loadOneBbox (v8MapLabelId (.list ["person"])))
    exSt "train" "a" "images/train/a.jpg" rfl rfl).1

/-- C10: an empty `skeleton_sub_labels` dict is falsy, so it bypasses both
hint validations and behaves exactly like passing no hint: every skeleton
label receives `maxPoints` auto-named sub-labels `<skeleton>_point_<i>`. -/
theorem c10_empty_hint_bypass (maxPoints : ℕ) (skels : List String) :
    poseLoadCats maxPoints skels (some []) =
      poseLoadCats maxPoints skels none ∧
    poseLoadCats maxPoints skels (some []) =
      .ok (mkCats skels (autoChildren maxPoints)) ∧
    ∀ (s : String), autoChildren maxPoints s =
      (List.range maxPoints).map (fun i => s ++ "_point_" ++ toString i) :=
  ⟨rfl, rfl, fun _ => rfl⟩

/-- C6 counterexample: with skeleton label `person` and the caller-supplied
empty mapping, every skeleton label is missing from the mapping, yet
construction does not abort: it succeeds with auto-named sub-labels, because
`if self._skeleton_sub_labels:` is false for an empty dict. -/
theorem c6_counterexample_empty_hint :
    poseLoadCats 2 ["person"] (some []) =
      .ok ⟨[⟨"person", ""⟩, ⟨"person_point_0", "person"⟩,
            ⟨"person_point_1", "person"⟩],
           [(0, ["person_point_0", "person_point_1"])]⟩ := by
  rfl

/-- C6 (amended): during pose-extractor construction without a side-car
meta file, a NON-EMPTY caller-supplied sub-label mapping aborts
construction when any skeleton label from the config is missing from the
mapping, then when the mapping assigns some skeleton more than `maxPoints`
sub-labels; otherwise each skeleton gets its supplied sub-labels. With no
mapping — or an empty one, which is falsy (claim C10) — each skeleton gets
`maxPoints` auto-named sub-labels. The final LabelCategories lists all
skeleton labels first (no parent) and then all point sub-labels with parent
set to their skeleton, and PointsCategories maps each skeleton's index to
its sub-label list. -/
theorem c6_sub_label_hint (maxPoints : ℕ) (skels : List String)
    (hint : Option (List (String × List String))) :
    (hintTruthy hint = true →
      ((∃ s ∈ skels, alookup (hint.getD []) s = none) →
        poseLoadCats maxPoints skels hint =
          .error (.invalidAnn
            "Labels from config file are absent in sub label hint")) ∧
      ((∀ s ∈ skels, alookup (hint.getD []) s ≠ none) →
        ((∃ s ∈ skels,
            maxPoints < ((alookup (hint.getD []) s).getD []).length) →
          poseLoadCats maxPoints skels hint =
            .error (.invalidAnn "Following skeletons have more sub labels")) ∧
        ((∀ s ∈ skels,
            ((alookup (hint.getD []) s).getD []).length ≤ maxPoints) →
          poseLoadCats maxPoints skels hint =
            .ok (mkCats skels
              (fun s => (alookup (hint.getD []) s).getD []))))) ∧
    (hintTruthy hint = false →
      poseLoadCats maxPoints skels hint =
        .ok (mkCats skels (autoChildren maxPoints))) ∧
    (∀ (children : String → List String),
      (mkCats skels children).labels =
        skels.map (fun s => ⟨s, ""⟩) ++
          (skels.flatMap (fun s => (children s).map (fun c => (c, s)))).map
            (fun p => ⟨p.1, p.2⟩) ∧
      (mkCats skels children).points =
        skels.enum.map (fun p => ((p.1 : ℤ), children p.2))) := by
  refine ⟨?_, ?_, fun children => ⟨rfl, rfl⟩⟩
  · intro ht
    constructor
    · intro hmissing
      rcases hmissing with ⟨s, hs, hnone⟩
      have hany : skels.any
          (fun s => (alookup (hint.getD []) s).isNone) = true :=
        List.any_eq_true.mpr ⟨s, hs, by simp [hnone]⟩
      simp only [poseLoadCats, ht, hany, Bool.true_and, if_true]
    · intro hall
      have hany : skels.any
          (fun s => (alookup (hint.getD []) s).isNone) = false := by
        rw [List.any_eq_false]
        intro s hs
        simp only [Option.isNone_iff_eq_none]
        exact hall s hs
      constructor
      · intro hover
        rcases hover with ⟨s, hs, hlen⟩
        have hany2 : skels.any (fun s =>
            decide (maxPoints <
              ((alookup (hint.getD []) s).getD []).length)) = true :=
          List.any_eq_true.mpr ⟨s, hs, by simpa using hlen⟩
        simp only [poseLoadCats, ht, hany, hany2, Bool.true_and,
          Bool.and_false, Bool.false_and]
        simp
      · intro hok
        have hany2 : skels.any (fun s =>
            decide (maxPoints <
              ((alookup (hint.getD []) s).getD []).length)) = false := by
          rw [List.any_eq_false]
          intro s hs
          simpa using Nat.not_lt.mpr (hok s hs)
        simp only [poseLoadCats, ht, hany, hany2, Bool.true_and]
        simp
  · intro ht
    simp only [poseLoadCats, ht, Bool.false_and]
    simp

/-- Witness for C6 with a valid non-empty hint. -/
theorem c6_witness :
    poseLoadCats 2 ["person"] (some [("person", ["nose"])]) =
      .ok (mkCats ["person"]
        (fun s => (alookup [("person", ["nose"])] s).getD [])) :=
  (((c6_sub_label_hint 2 ["person"]
      (some [("person", ["nose"])])).1 rfl).2
    (by intro s hs; simp at hs; subst hs; simp [alookup])).2
    (by intro s hs; simp at hs; subst hs; simp [alookup])

theorem mod180_zero : mod180 0 = 0 := by
  unfold mod180
  norm_num

theorem mod180_thirty : mod180 30 = 30 := by
  unfold mod180
  have h : ⌊(30 : ℚ) / 180⌋ = 0 := by
    rw [Int.floor_eq_zero_iff]
    constructor <;> norm_num
  rw [h]
  norm_num

/-- C7: an oriented-box record whose field count differs from 9 fails with
a field-count error; for a 9-field record the fitted minimum-area
rectangle's rotation is reduced modulo 180 into `[0, 180)` and the
resulting axis-aligned Bbox (center/extents of the fitted rectangle)
carries a `rotation` attribute iff the reduced rotation's magnitude exceeds
1e-5; under the spec contract for the external fit, 4 axis-aligned corners
at 0 degrees yield a Bbox with no rotation attribute, and the same corners
rotated 30 degrees yield a Bbox whose rotation attribute is 30, inside
`(0, 180)`. -/
theorem c7_oriented_box :
    (∀ (fit : List (ℚ × ℚ) → RotRect) (names : Names) (parts : List Tok)
      (imageHeight imageWidth : ℕ), parts.length ≠ 9 →
      obbLoadOne fit names parts imageHeight imageWidth =
        .error (.fieldCount parts.length
          "in the bbox description. Expected 9 fields (label, x1, y1, x2, y2, x3, y3, x4, y4).")) ∧
    (∀ (fit : List (ℚ × ℚ) → RotRect) (names : Names) (lt : Tok)
      (x1 y1 x2 y2 x3 y3 x4 y4 : ℚ) (lid : ℤ) (imageHeight imageWidth : ℕ),
      v8MapLabelId names lt = .ok lid →
      (obbLoadOne fit names
          [lt, .num x1, .num y1, .num x2, .num y2, .num x3, .num y3,
            .num x4, .num y4] imageHeight imageWidth =
        .ok (.bbox
          ((fit (obbScaledPts x1 y1 x2 y2 x3 y3 x4 y4 imageHeight
            imageWidth)).center.1 -
            (fit (obbScaledPts x1 y1 x2 y2 x3 y3 x4 y4 imageHeight
              imageWidth)).size.1 / 2)
          ((fit (obbScaledPts x1 y1 x2 y2 x3 y3 x4 y4 imageHeight
            imageWidth)).center.2 -
            (fit (obbScaledPts x1 y1 x2 y2 x3 y3 x4 y4 imageHeight
              imageWidth)).size.2 / 2)
          (fit (obbScaledPts x1 y1 x2 y2 x3 y3 x4 y4 imageHeight
            imageWidth)).size.1
          (fit (obbScaledPts x1 y1 x2 y2 x3 y3 x4 y4 imageHeight
            imageWidth)).size.2
          lid
          (if |mod180 (fit (obbScaledPts x1 y1 x2 y2 x3 y3 x4 y4 imageHeight
              imageWidth)).rotation| > 1 / 100000 then
            [("rotation", mod180 (fit (obbScaledPts x1 y1 x2 y2 x3 y3 x4 y4
              imageHeight imageWidth)).rotation)]
          else [])) ∧
       (0 ≤ mod180 (fit (obbScaledPts x1 y1 x2 y2 x3 y3 x4 y4 imageHeight
          imageWidth)).rotation ∧
        mod180 (fit (obbScaledPts x1 y1 x2 y2 x3 y3 x4 y4 imageHeight
          imageWidth)).rotation < 180) ∧
       (("rotation" ∈ ((if |mod180 (fit (obbScaledPts x1 y1 x2 y2 x3 y3 x4
            y4 imageHeight imageWidth)).rotation| > 1 / 100000 then
            [("rotation", mod180 (fit (obbScaledPts x1 y1 x2 y2 x3 y3 x4 y4
              imageHeight imageWidth)).rotation)]
          else [] : List (String × ℚ)).map Prod.fst)) ↔
        1 / 100000 < |mod180 (fit (obbScaledPts x1 y1 x2 y2 x3 y3 x4 y4
          imageHeight imageWidth)).rotation|))) ∧
    (∀ (fit : List (ℚ × ℚ) → RotRect) (names : Names) (lt : Tok)
      (x1 y1 x2 y2 x3 y3 x4 y4 : ℚ) (lid : ℤ) (cx cy w h : ℚ)
      (imageHeight imageWidth : ℕ),
      v8MapLabelId names lt = .ok lid →
      FitsRectAt fit cx cy w h 1 0 0 →
      obbScaledPts x1 y1 x2 y2 x3 y3 x4 y4 imageHeight imageWidth =
        rectCorners cx cy w h 1 0 →
      obbLoadOne fit names
          [lt, .num x1, .num y1, .num x2, .num y2, .num x3, .num y3,
            .num x4, .num y4] imageHeight imageWidth =
        .ok (.bbox (cx - w / 2) (cy - h / 2) w h lid [])) ∧
    (∀ (fit : List (ℚ × ℚ) → RotRect) (names : Names) (lt : Tok)
      (x1 y1 x2 y2 x3 y3 x4 y4 : ℚ) (lid : ℤ) (cx cy w h c s : ℚ)
      (imageHeight imageWidth : ℕ),
      v8MapLabelId names lt = .ok lid →
      FitsRectAt fit cx cy w h c s 30 →
      obbScaledPts x1 y1 x2 y2 x3 y3 x4 y4 imageHeight imageWidth =
        rectCorners cx cy w h c s →
      obbLoadOne fit names
          [lt, .num x1, .num y1, .num x2, .num y2, .num x3, .num y3,
            .num x4, .num y4] imageHeight imageWidth =
        .ok (.bbox (cx - w / 2) (cy - h / 2) w h lid [("rotation", 30)]) ∧
      (0 : ℚ) < 30 ∧ (30 : ℚ) < 180) := by
  have hmain : ∀ (fit : List (ℚ × ℚ) → RotRect) (names : Names) (lt : Tok)
      (x1 y1 x2 y2 x3 y3 x4 y4 : ℚ) (lid : ℤ) (imageHeight imageWidth : ℕ),
      v8MapLabelId names lt = .ok lid →
      obbLoadOne fit names
          [lt, .num x1, .num y1, .num x2, .num y2, .num x3, .num y3,
            .num x4, .num y4] imageHeight imageWidth =
        .ok (.bbox
          ((fit (obbScaledPts x1 y1 x2 y2 x3 y3 x4 y4 imageHeight
            imageWidth)).center.1 -
            (fit (obbScaledPts x1 y1 x2 y2 x3 y3 x4 y4 imageHeight
              imageWidth)).size.1 / 2)
          ((fit (obbScaledPts x1 y1 x2 y2 x3 y3 x4 y4 imageHeight
            imageWidth)).center.2 -
            (fit (obbScaledPts x1 y1 x2 y2 x3 y3 x4 y4 imageHeight
              imageWidth)).size.2 / 2)
          (fit (obbScaledPts x1 y1 x2 y2 x3 y3 x4 y4 imageHeight
            imageWidth)).size.1
          (fit (obbScaledPts x1 y1 x2 y2 x3 y3 x4 y4 imageHeight
            imageWidth)).size.2
          lid
          (if |mod180 (fit (obbScaledPts x1 y1 x2 y2 x3 y3 x4 y4 imageHeight
              imageWidth)).rotation| > 1 / 100000 then
            [("rotation", mod180 (fit (obbScaledPts x1 y1 x2 y2 x3 y3 x4 y4
              imageHeight imageWidth)).rotation)]
          else [])) := by
    intro fit names lt x1 y1 x2 y2 x3 y3 x4 y4 lid imageHeight imageWidth
      hmap
    simp [obbLoadOne, hmap, ok_bind, chunkPairs, parseFieldFloat,
      parseFloatTok, List.enum, List.enumFrom, obbScaledPts,
      List.mapM.loop]
  refine ⟨?_, ?_, ?_, ?_⟩
  · intro fit names parts imageHeight imageWidth h
    simp [obbLoadOne, h]
  · intro fit names lt x1 y1 x2 y2 x3 y3 x4 y4 lid imageHeight imageWidth
      hmap
    refine ⟨hmain fit names lt x1 y1 x2 y2 x3 y3 x4 y4 lid imageHeight
      imageWidth hmap, mod180_mem _, ?_⟩
    by_cases hrot : |mod180 (fit (obbScaledPts x1 y1 x2 y2 x3 y3 x4 y4
        imageHeight imageWidth)).rotation| > 1 / 100000
    · simp [hrot]
    · simp [hrot]
  · intro fit names lt x1 y1 x2 y2 x3 y3 x4 y4 lid cx cy w h imageHeight
      imageWidth hmap hfit hpts
    have h1 := hmain fit names lt x1 y1 x2 y2 x3 y3 x4 y4 lid imageHeight
      imageWidth hmap
    rw [hpts] at h1
    unfold FitsRectAt at hfit
    rw [hfit] at h1
    simpa [mod180_zero] using h1
  · intro fit names lt x1 y1 x2 y2 x3 y3 x4 y4 lid cx cy w h c s imageHeight
      imageWidth hmap hfit hpts
    have h1 := hmain fit names lt x1 y1 x2 y2 x3 y3 x4 y4 lid imageHeight
      imageWidth hmap
    rw [hpts] at h1
    unfold FitsRectAt at hfit
    rw [hfit] at h1
    refine ⟨?_, by norm_num, by norm_num⟩
    rw [h1]
    simp only [mod180_thirty]
    norm_num

/-- Witness for C7: concrete 30-degree instance with an explicit fit
function satisfying the spec contract at the given corners. -/
theorem c7_witness :
    obbLoadOne (fun _ => ⟨(3, 2), (4, 2), 30⟩) (.list ["person"])
        [.int 0, .num 1, .num 1, .num 5, .num 1, .num 5, .num 3, .num 1,
          .num 3] 1 1 =
      .ok (.bbox (3 - 4 / 2) (2 - 2 / 2) 4 2 0 [("rotation", 30)]) :=
  ((c7_oriented_box).2.2.2 (fun _ => ⟨(3, 2), (4, 2), 30⟩) (.list ["person"])
    (.int 0) 1 1 5 1 5 3 1 3 0 3 2 4 2 1 0 1 1 rfl rfl
    (by norm_num [obbScaledPts, rectCorners, rotPt])).1

theorem length_flat3 (chunks : List (ℚ × ℚ × ℤ)) :
    (chunks.flatMap
      (fun c => [Tok.num c.1, Tok.num c.2.1, Tok.int c.2.2])).length =
      3 * chunks.length := by
  induction chunks with
  | nil => rfl
  | cons c tl ih =>
    simp only [List.flatMap_cons, List.length_append, List.length_cons,
      List.length_nil, ih]
    omega

theorem length_flat2 (chunks : List (ℚ × ℚ)) :
    (chunks.flatMap (fun c => [Tok.num c.1, Tok.num c.2])).length =
      2 * chunks.length := by
  induction chunks with
  | nil => rfl
  | cons c tl ih =>
    simp only [List.flatMap_cons, List.length_append, List.length_cons,
      List.length_nil, ih]
    omega

theorem getTok_of_append (pre l2 : List Tok) (k : ℕ) :
    (pre ++ l2)[pre.length + k]? = l2[k]? := by
  rw [List.getElem?_append_right (by omega)]
  congr 1
  omega

theorem mkSkelPoint_eval3 (pre rest : List Tok) (c : ℚ × ℚ × ℤ)
    (pl : Option ℤ) (n imageHeight imageWidth : ℕ)
    (hpre : pre.length = 5 + n * 3) :
    mkSkelPoint
        (pre ++ (Tok.num c.1 :: Tok.num c.2.1 :: Tok.int c.2.2 :: rest))
        imageHeight imageWidth 3 n pl =
      .ok ⟨[c.1 * imageWidth, c.2.1 * imageHeight], [c.2.2], pl⟩ := by
  have hx := getTok_of_append pre
    (Tok.num c.1 :: Tok.num c.2.1 :: Tok.int c.2.2 :: rest) 0
  have hy := getTok_of_append pre
    (Tok.num c.1 :: Tok.num c.2.1 :: Tok.int c.2.2 :: rest) 1
  have hv := getTok_of_append pre
    (Tok.num c.1 :: Tok.num c.2.1 :: Tok.int c.2.2 :: rest) 2
  rw [hpre] at hx hy hv
  simp only [Nat.add_zero] at hx
  simp only [List.getElem?_cons_zero, List.getElem?_cons_succ] at hx hy hv
  simp [mkSkelPoint, hx, hy, hv, parseFieldFloat, parseFloatTok,
    parseFieldInt, parseIntTok, ok_bind]

theorem mkSkelPoint_eval2 (pre rest : List Tok) (c : ℚ × ℚ)
    (pl : Option ℤ) (n imageHeight imageWidth : ℕ)
    (hpre : pre.length = 5 + n * 2) :
    mkSkelPoint (pre ++ (Tok.num c.1 :: Tok.num c.2 :: rest))
        imageHeight imageWidth 2 n pl =
      .ok ⟨[c.1 * imageWidth, c.2 * imageHeight], [visibleValue], pl⟩ := by
  have hx := getTok_of_append pre (Tok.num c.1 :: Tok.num c.2 :: rest) 0
  have hy := getTok_of_append pre (Tok.num c.1 :: Tok.num c.2 :: rest) 1
  rw [hpre] at hx hy
  simp only [Nat.add_zero] at hx
  simp only [List.getElem?_cons_zero, List.getElem?_cons_succ] at hx hy
  simp [mkSkelPoint, hx, hy, parseFieldFloat, parseFloatTok, ok_bind]

theorem mapExcept_skel3 (imageHeight imageWidth : ℕ) :
    ∀ (chunks : List (ℚ × ℚ × ℤ)) (pls : List (Option ℤ)) (n : ℕ)
      (pre : List Tok), pre.length = 5 + n * 3 →
      pls.length = chunks.length →
      mapExcept (fun pr => mkSkelPoint
          (pre ++ chunks.flatMap
            (fun c => [Tok.num c.1, Tok.num c.2.1, Tok.int c.2.2]))
          imageHeight imageWidth 3 pr.1 pr.2) (pls.enumFrom n) =
        .ok ((pls.zip chunks).map (fun pc =>
          ⟨[pc.2.1 * imageWidth, pc.2.2.1 * imageHeight], [pc.2.2.2],
            pc.1⟩)) := by
  intro chunks
  induction chunks with
  | nil =>
    intro pls n pre hpre hlen
    have h0 : pls = [] := List.length_eq_zero.mp (by simpa using hlen)
    subst h0
    rfl
  | cons c tl ih =>
    intro pls n pre hpre hlen
    match pls with
    | [] => simp at hlen
    | pl :: pls' =>
      simp only [List.length_cons] at hlen
      simp only [List.flatMap_cons, List.cons_append, List.nil_append,
        List.enumFrom_cons, mapExcept]
      rw [mkSkelPoint_eval3 pre _ c pl n imageHeight imageWidth hpre,
        ok_bind]
      rw [show pre ++ (Tok.num c.1 :: Tok.num c.2.1 :: Tok.int c.2.2 ::
          tl.flatMap (fun c => [Tok.num c.1, Tok.num c.2.1, Tok.int c.2.2]))
          = (pre ++ [Tok.num c.1, Tok.num c.2.1, Tok.int c.2.2]) ++
            tl.flatMap
              (fun c => [Tok.num c.1, Tok.num c.2.1, Tok.int c.2.2])
        from by simp]
      rw [ih pls' (n + 1) (pre ++ [Tok.num c.1, Tok.num c.2.1,
          Tok.int c.2.2]) (by simp [hpre]; omega) (by omega), ok_bind]
      simp

theorem mapExcept_skel2 (imageHeight imageWidth : ℕ) :
    ∀ (chunks : List (ℚ × ℚ)) (pls : List (Option ℤ)) (n : ℕ)
      (pre : List Tok), pre.length = 5 + n * 2 →
      pls.length = chunks.length →
      mapExcept (fun pr => mkSkelPoint
          (pre ++ chunks.flatMap (fun c => [Tok.num c.1, Tok.num c.2]))
          imageHeight imageWidth 2 pr.1 pr.2) (pls.enumFrom n) =
        .ok ((pls.zip chunks).map (fun pc =>
          ⟨[pc.2.1 * imageWidth, pc.2.2 * imageHeight], [visibleValue],
            pc.1⟩)) := by
  intro chunks
  induction chunks with
  | nil =>
    intro pls n pre hpre hlen
    have h0 : pls = [] := List.length_eq_zero.mp (by simpa using hlen)
    subst h0
    rfl
  | cons c tl ih =>
    intro pls n pre hpre hlen
    match pls with
    | [] => simp at hlen
    | pl :: pls' =>
      simp only [List.length_cons] at hlen
      simp only [List.flatMap_cons, List.cons_append, List.nil_append,
        List.enumFrom_cons, mapExcept]
      rw [mkSkelPoint_eval2 pre _ c pl n imageHeight imageWidth hpre,
        ok_bind]
      rw [show pre ++ (Tok.num c.1 :: Tok.num c.2 ::
          tl.flatMap (fun c => [Tok.num c.1, Tok.num c.2]))
          = (pre ++ [Tok.num c.1, Tok.num c.2]) ++
            tl.flatMap (fun c => [Tok.num c.1, Tok.num c.2])
        from by simp]
      rw [ih pls' (n + 1) (pre ++ [Tok.num c.1, Tok.num c.2])
        (by simp [hpre]; omega) (by omega), ok_bind]
      simp

/-- C5: a pose record whose field count differs from `5 + P·V` fails with a
field-count error; a record with exactly `5 + P·V` fields yields one
Skeleton whose points follow the registered sub-label order (their labels
found positionally against the skeleton's sub-label list), each point
carrying `(x·W, y·H)` from its chunk and visibility equal to the chunk's
third value when `V = 3` and the constant `visible` when `V = 2`; of the
first 5 fields only the label token is used — the four box-geometry tokens
are arbitrary and do not appear in the result. -/
theorem c5_pose_record :
    (∀ (cats : Cats) (mapLabel : Tok → Except YError ℤ) (P V : ℕ)
      (parts : List Tok) (imageHeight imageWidth : ℕ),
      parts.length ≠ 5 + P * V →
      poseLoadOne cats mapLabel P V parts imageHeight imageWidth =
        .error (.fieldCount parts.length
          ("in the skeleton description. Expected 5 fields (label, xc, yc, w, h)and then "
            ++ toString V ++ " for each of " ++ toString P ++ " points"))) ∧
    (∀ (cats : Cats) (mapLabel : Tok → Except YError ℤ) (P : ℕ)
      (lt b1 b2 b3 b4 : Tok) (chunks : List (ℚ × ℚ × ℤ)) (lid : ℤ)
      (pls : List String) (pcat : LabelCat) (imageHeight imageWidth : ℕ),
      mapLabel lt = .ok lid →
      alookup cats.points lid = some pls →
      pyGet cats.labels lid = some pcat →
      pls.length = P → chunks.length = P →
      poseLoadOne cats mapLabel P 3
          (lt :: b1 :: b2 :: b3 :: b4 :: chunks.flatMap
            (fun c => [Tok.num c.1, Tok.num c.2.1, Tok.int c.2.2]))
          imageHeight imageWidth =
        .ok (.skeleton
          (((pls.map (fun pl => cats.find pl pcat.name)).zip chunks).map
            (fun pc => ⟨[pc.2.1 * imageWidth, pc.2.2.1 * imageHeight],
              [pc.2.2.2], pc.1⟩)) lid)) ∧
    (∀ (cats : Cats) (mapLabel : Tok → Except YError ℤ) (P : ℕ)
      (lt b1 b2 b3 b4 : Tok) (chunks : List (ℚ × ℚ)) (lid : ℤ)
      (pls : List String) (pcat : LabelCat) (imageHeight imageWidth : ℕ),
      mapLabel lt = .ok lid →
      alookup cats.points lid = some pls →
      pyGet cats.labels lid = some pcat →
      pls.length = P → chunks.length = P →
      poseLoadOne cats mapLabel P 2
          (lt :: b1 :: b2 :: b3 :: b4 :: chunks.flatMap
            (fun c => [Tok.num c.1, Tok.num c.2]))
          imageHeight imageWidth =
        .ok (.skeleton
          (((pls.map (fun pl => cats.find pl pcat.name)).zip chunks).map
            (fun pc => ⟨[pc.2.1 * imageWidth, pc.2.2 * imageHeight],
              [visibleValue], pc.1⟩)) lid)) := by
  refine ⟨?_, ?_, ?_⟩
  · intro cats mapLabel P V parts imageHeight imageWidth h
    unfold poseLoadOne
    rw [if_pos h]
  · intro cats mapLabel P lt b1 b2 b3 b4 chunks lid pls pcat imageHeight
      imageWidth hmap hpts hcat hplen hclen
    have hflat := length_flat3 chunks
    have hlen : (lt :: b1 :: b2 :: b3 :: b4 :: chunks.flatMap
        (fun c => [Tok.num c.1, Tok.num c.2.1, Tok.int c.2.2])).length =
        5 + P * 3 := by
      simp only [List.length_cons, hflat, hclen]
      omega
    have heval := mapExcept_skel3 imageHeight imageWidth chunks
      (pls.map (fun pl => cats.find pl pcat.name)) 0 [lt, b1, b2, b3, b4]
      rfl (by simp [hplen, hclen])
    unfold poseLoadOne
    rw [if_neg (not_not_intro hlen)]
    simp only [List.headI, hmap, ok_bind, hpts, hcat, List.enum]
    rw [show (lt :: b1 :: b2 :: b3 :: b4 :: chunks.flatMap
        (fun c => [Tok.num c.1, Tok.num c.2.1, Tok.int c.2.2])) =
        [lt, b1, b2, b3, b4] ++ chunks.flatMap
          (fun c => [Tok.num c.1, Tok.num c.2.1, Tok.int c.2.2]) from rfl]
    rw [heval, ok_bind]
  · intro cats mapLabel P lt b1 b2 b3 b4 chunks lid pls pcat imageHeight
      imageWidth hmap hpts hcat hplen hclen
    have hflat := length_flat2 chunks
    have hlen : (lt :: b1 :: b2 :: b3 :: b4 :: chunks.flatMap
        (fun c => [Tok.num c.1, Tok.num c.2])).length = 5 + P * 2 := by
      simp only [List.length_cons, hflat, hclen]
      omega
    have heval := mapExcept_skel2 imageHeight imageWidth chunks
      (pls.map (fun pl => cats.find pl pcat.name)) 0 [lt, b1, b2, b3, b4]
      rfl (by simp [hplen, hclen])
    unfold poseLoadOne
    rw [if_neg (not_not_intro hlen)]
    simp only [List.headI, hmap, ok_bind, hpts, hcat, List.enum]
    rw [show (lt :: b1 :: b2 :: b3 :: b4 :: chunks.flatMap
        (fun c => [Tok.num c.1, Tok.num c.2])) =
        [lt, b1, b2, b3, b4] ++ chunks.flatMap
          (fun c => [Tok.num c.1, Tok.num c.2]) from rfl]
    rw [heval, ok_bind]

/-- Witness for C5: keypoint shape `[3, 2]`, skeleton `person` with three
auto-named sub-labels, an 11-field record. -/
theorem c5_witness :
    poseLoadOne (mkCats ["person"] (autoChildren 3)) (fun _ => .ok 0) 3 2
        (.int 0 :: .num 0 :: .num 0 :: .num 0 :: .num 0 ::
          ([((1 : ℚ), (2 : ℚ)), (3, 4), (5, 6)].flatMap
            (fun c => [Tok.num c.1, Tok.num c.2]))) 4 8 =
      .ok (.skeleton
        ((((autoChildren 3 "person").map (fun pl =>
            (mkCats ["person"] (autoChildren 3)).find pl
              (LabelCat.mk "person" "").name)).zip
            [((1 : ℚ), (2 : ℚ)), (3, 4), (5, 6)]).map (fun pc =>
          ⟨[pc.2.1 * (8 : ℕ), pc.2.2 * (4 : ℕ)], [visibleValue], pc.1⟩))
        0) :=
  (c5_pose_record).2.2 (mkCats ["person"] (autoChildren 3))
    (fun _ => .ok 0) 3 (.int 0) (.num 0) (.num 0) (.num 0) (.num 0)
    [((1 : ℚ), (2 : ℚ)), (3, 4), (5, 6)] 0 (autoChildren 3 "person")
    (LabelCat.mk "person" "") 4 8 rfl rfl rfl rfl rfl

end Yolo

